import Mathlib

/-!
Verification of the voting-statistics aggregation and filtering engine of the
City-Council-Tracker dashboard.  The definitions below are a shallow embedding
of the relevant TypeScript source:

* `applyFilters`        — `src/components/votes/VotesAnalysis.tsx`, `applyFilters`
* `computeStats`        — `src/components/votes/VotesKPIs.tsx`, `fetchStats`
* `jsPct`               — percentage computation guarded by `total > 0`
                          (`MembersList.tsx`, member profile `approvalRate`),
                          with the arithmetic in IEEE-754 binary64 (`fl64`)
* `categoryBreakdown`   — member-profile category grouping (`fetchMemberData`)
* `deriveOutcome`, `deriveImpact`, `caseStudyGroups`
                        — case-study grouping (`fetchCaseStudies`)

JavaScript semantics that matter and how they are embedded:
* optional chaining `a?.b` on a possibly-missing join is `Option.bind`;
* `x || d` on a string treats the empty string as falsy (`jsOr`);
* `x || d` on an array only replaces `null`/`undefined` (`Option.getD`);
* numeric arithmetic is IEEE-754 binary64: each operation is the correctly
  rounded (round-to-nearest, ties-to-even) value of its exact result,
  modelled over `ℚ` by `fl64`; `Math.round` on a non-negative double is
  half-up rounding of its exact rational value, `⌊q + 1/2⌋`.
-/

namespace CouncilTracker

/-- Closed set of vote outcomes (`vote_value` enum in the schema). -/
inductive VoteValue where
  | YEA
  | NAY
  | ABSTAIN
  | ABSENT
deriving DecidableEq, Repr

/-- The string stored in the `vote_value` column for each outcome. -/
def VoteValue.toStr : VoteValue → String
  | .YEA => "YEA"
  | .NAY => "NAY"
  | .ABSTAIN => "ABSTAIN"
  | .ABSENT => "ABSENT"

/-- Joined meeting fields as selected by the vote queries. -/
structure Meeting where
  date : Option String
  title : Option String
deriving DecidableEq, Repr

/-- Joined agenda-item fields; every field is accessed with `?.` in the
source, so each may be missing at runtime. -/
structure AgendaItem where
  title : Option String
  category : Option String
  tags : Option (List String)
  meetings : Option Meeting
deriving DecidableEq, Repr

/-- Joined council-member fields. -/
structure CouncilMember where
  name : Option String
  title : Option String
deriving DecidableEq, Repr

/-- An enriched vote record: a vote joined with its agenda item (and that
item's meeting) and the voting member.  The joins may fail, hence `Option`. -/
structure VoteRecord where
  vote_value : VoteValue
  created_at : String
  agenda_items : Option AgendaItem
  council_members : Option CouncilMember
deriving DecidableEq, Repr

/-- JavaScript `x || d` for an optional string: `null`/`undefined` and the
empty string are falsy and replaced by the default. -/
def jsOr (x : Option String) (d : String) : String :=
  match x with
  | some s => if s = "" then d else s
  | none => d

/-- `pat.isInfixOfList hay`-style substring test on character lists, matching
JavaScript `hay.includes(pat)` (the empty pattern matches everything). -/
def listContainsSub (pat : List Char) : List Char → Bool
  | [] => pat.isEmpty
  | c :: rest => pat.isPrefixOf (c :: rest) || listContainsSub pat rest

/-- JavaScript `hay.includes(pat)`: substring containment. -/
def strIncludes (hay pat : String) : Bool :=
  listContainsSub pat.data hay.data

/-- Case-insensitive containment, as every source filter lowercases both
sides before calling `.includes`. -/
def ciIncludes (hay pat : String) : Bool :=
  strIncludes hay.toLower pat.toLower

/-- `o?.toLowerCase().includes(pat)` on an optional string: missing is a
non-match (`undefined` is falsy). -/
def optIncludes (o : Option String) (pat : String) : Bool :=
  match o with
  | some s => ciIncludes s pat
  | none => false

/-- The filter criteria record of `VotesAnalysis` / `VotesKPIs`: four
independent string fields, where the empty string means "no constraint". -/
structure Filters where
  search : String
  category : String
  member : String
  voteValue : String
deriving DecidableEq, Repr

/-- The all-empty criteria (the component's default `filters` value). -/
def Filters.empty : Filters := ⟨"", "", "", ""⟩

/-- Search dimension: case-insensitive substring match against agenda title,
member name, category label, or any tag (OR within the dimension).
Mirrors `VotesAnalysis.tsx` lines 95–100. -/
def searchMatch (f : String) (v : VoteRecord) : Bool :=
  optIncludes (v.agenda_items.bind (·.title)) f ||
  optIncludes (v.council_members.bind (·.name)) f ||
  optIncludes (v.agenda_items.bind (·.category)) f ||
  (match v.agenda_items.bind (·.tags) with
   | some ts => ts.any (fun t => ciIncludes t f)
   | none => false)

/-- Category dimension: case-insensitive exact match against the agenda
item's category; a missing join or category never matches
(`vote.agenda_items?.category?.toLowerCase() === f.toLowerCase()`). -/
def categoryMatch (f : String) (v : VoteRecord) : Bool :=
  match v.agenda_items.bind (·.category) with
  | some c => c.toLower == f.toLower
  | none => false

/-- Member dimension: case-insensitive substring match on the member name. -/
def memberMatch (f : String) (v : VoteRecord) : Bool :=
  optIncludes (v.council_members.bind (·.name)) f

/-- Outcome dimension: exact string equality with the vote value. -/
def voteValueMatch (f : String) (v : VoteRecord) : Bool :=
  v.vote_value.toStr == f

/-- `applyFilters` from `VotesAnalysis.tsx` (lines 89–125): four sequential
guarded filter passes over the record list; an empty criterion (falsy in JS)
skips its pass. -/
def applyFilters (fs : Filters) (allVotes : List VoteRecord) : List VoteRecord :=
  let d1 := if fs.search ≠ "" then allVotes.filter (searchMatch fs.search) else allVotes
  let d2 := if fs.category ≠ "" then d1.filter (categoryMatch fs.category) else d1
  let d3 := if fs.member ≠ "" then d2.filter (memberMatch fs.member) else d2
  if fs.voteValue ≠ "" then d3.filter (voteValueMatch fs.voteValue) else d3

/-- The conjunction of the four dimension predicates, each vacuously true
when its criterion is empty. -/
def fullPass (fs : Filters) (v : VoteRecord) : Bool :=
  (decide (fs.search = "") || searchMatch fs.search v) &&
  (decide (fs.category = "") || categoryMatch fs.category v) &&
  (decide (fs.member = "") || memberMatch fs.member v) &&
  (decide (fs.voteValue = "") || voteValueMatch fs.voteValue v)

/-! ### Aggregation engine -/

/-- The statistics record.  `fetchStats` in `VotesKPIs.tsx` computes
`total`, `yea`, `nay`, `abstain`; the `absent` field completes the spec's
`Stats` contract using the identical tally pattern the source applies to the
other three outcomes (`filter(v => v.vote_value === 'ABSENT').length`). -/
structure Stats where
  total : Nat
  yea : Nat
  nay : Nat
  abstain : Nat
  absent : Nat
deriving DecidableEq, Repr

/-- Per-outcome tally: `records.filter(v => v.vote_value === o).length`. -/
def tally (o : VoteValue) (records : List VoteRecord) : Nat :=
  (records.filter (fun v => v.vote_value == o)).length

/-- The statistics reduction of `fetchStats` (`VotesKPIs.tsx` lines 86–91)
over an (already filtered) record list. -/
def computeStats (records : List VoteRecord) : Stats :=
  { total := records.length
    yea := tally .YEA records
    nay := tally .NAY records
    abstain := tally .ABSTAIN records
    absent := tally .ABSENT records }

/-- Half-up rounding of a rational: `⌊q + 1/2⌋`.  This is JavaScript
`Math.round` applied to a non-negative number whose exact value is the
rational `q` (ties round toward positive infinity). -/
def jsRound (q : ℚ) : ℤ :=
  ⌊q + 1 / 2⌋

/-- Fuelled floor base-2 logarithm on naturals: for `1 ≤ n` (and enough
fuel, `fuel ≥ n` suffices) the greatest `k` with `2 ^ k ≤ n`. -/
def log2Fuel : ℕ → ℕ → ℕ
  | 0, _ => 0
  | fuel + 1, n => if n ≤ 1 then 0 else log2Fuel fuel (n / 2) + 1

/-- Fuelled ceiling base-2 logarithm on rationals: for `1 ≤ r` (and enough
fuel, `fuel ≥ ⌈r⌉` suffices) the least `k` with `r ≤ 2 ^ k`. -/
def clog2Fuel : ℕ → ℚ → ℕ
  | 0, _ => 0
  | fuel + 1, r => if r ≤ 1 then 0 else clog2Fuel fuel (r / 2) + 1

/-- Binary exponent of a positive rational: the unique `e` with
`2 ^ e ≤ q < 2 ^ (e + 1)`. -/
def binExp (q : ℚ) : ℤ :=
  if 1 ≤ q then (log2Fuel ⌊q⌋.toNat ⌊q⌋.toNat : ℤ)
  else -(clog2Fuel ⌈q⁻¹⌉.toNat q⁻¹ : ℤ)

/-- Round a rational to the nearest integer, ties to even (the IEEE-754
default rounding direction). -/
def rne (q : ℚ) : ℤ :=
  if q - ⌊q⌋ < 1 / 2 then ⌊q⌋
  else if 1 / 2 < q - ⌊q⌋ then ⌊q⌋ + 1
  else if 2 ∣ ⌊q⌋ then ⌊q⌋ else ⌊q⌋ + 1

/-- IEEE-754 binary64 rounding of a non-negative rational in the normal
range: round to the nearest multiple of `2 ^ (e - 52)` (53-bit mantissa),
ties to even.  Each JavaScript arithmetic operation produces exactly this
correctly rounded value of its exact result. -/
def fl64 (q : ℚ) : ℚ :=
  if q = 0 then 0
  else (rne (q * 2 ^ ((52 : ℤ) - binExp q)) : ℚ) * 2 ^ (binExp q - 52)

/-- The percentage the code computes, in binary64 arithmetic:
`stats.total > 0 ? Math.round((count / total) * 100) : 0`
(the member profile's `approvalRate` and `MembersList.tsx` line 92) — the
division and the multiplication are each correctly rounded to binary64, then
`Math.round` rounds the resulting double half-up.  Integer counts are below
`2 ^ 53` and convert exactly. -/
def jsPct (count total : ℕ) : ℤ :=
  if 0 < total then jsRound (fl64 (fl64 ((count : ℚ) / (total : ℚ)) * 100)) else 0

/-- The spec's idealized percentage, for comparison with `jsPct`
(second definition following the spec's words): exact half-up rounding of
`100 * count / total`, with the same `total = 0` guard. -/
def specPct (count total : ℕ) : ℤ :=
  if 0 < total then jsRound (100 * (count : ℚ) / (total : ℚ)) else 0

/-! ### Member-profile category breakdown (`fetchMemberData`, `part_004`) -/

/-- The member-profile vote outcome type: `'YEA' | 'NAY' | 'ABSTAIN'`
(`VoteData` in the member profile component). -/
inductive MemberVoteValue where
  | YEA
  | NAY
  | ABSTAIN
deriving DecidableEq, Repr

/-- A vote row fetched for one member's profile. -/
structure MemberVote where
  vote_value : MemberVoteValue
  agenda_items : Option AgendaItem
deriving DecidableEq, Repr

/-- Per-category counters of the member profile. -/
structure CatStats where
  total : Nat
  yea : Nat
  nay : Nat
  abstain : Nat
deriving DecidableEq, Repr

/-- The zero counters a freshly created category group starts from. -/
def CatStats.zero : CatStats := ⟨0, 0, 0, 0⟩

/-- `categories[category].total++; categories[category][value.toLowerCase()]++`. -/
def CatStats.bump (s : CatStats) : MemberVoteValue → CatStats
  | .YEA => { s with total := s.total + 1, yea := s.yea + 1 }
  | .NAY => { s with total := s.total + 1, nay := s.nay + 1 }
  | .ABSTAIN => { s with total := s.total + 1, abstain := s.abstain + 1 }

/-- Grouping key: `vote.agenda_items?.category || 'Unknown'` — a missing
join, missing category, or empty category label all map to `"Unknown"`. -/
def categoryKey (v : MemberVote) : String :=
  jsOr (v.agenda_items.bind (·.category)) "Unknown"

/-- One step of the `forEach` loop building the category map; the map is an
association list in key insertion order (JS object string-key order). -/
def addVote (m : List (String × CatStats)) (v : MemberVote) : List (String × CatStats) :=
  if m.any (fun p => p.1 == categoryKey v) then
    m.map (fun p => if p.1 == categoryKey v then (p.1, p.2.bump v.vote_value) else p)
  else
    m ++ [(categoryKey v, CatStats.zero.bump v.vote_value)]

/-- The category breakdown of `fetchMemberData` (`part_004` lines 122–131). -/
def categoryBreakdown (records : List MemberVote) : List (String × CatStats) :=
  records.foldl addVote []

/-! ### Case-study grouping (`fetchCaseStudies`, `part_001`) -/

/-- One entry of a case-study group's `votes` array. -/
structure CaseVote where
  member_name : String
  vote_value : String
  title : String
deriving DecidableEq, Repr

/-- An agenda-item group accumulated by the `reduce` over votes. -/
structure CaseGroup where
  title : String
  category : String
  date : String
  tags : List String
  votes : List CaseVote
deriving DecidableEq, Repr

/-- Grouping key: `vote.agenda_items?.title || 'Unknown'`. -/
def caseKey (v : VoteRecord) : String :=
  jsOr (v.agenda_items.bind (·.title)) "Unknown"

/-- The group skeleton created on first sight of a key:
category defaults to `'General'`, date falls back to `created_at`,
tags default to the empty array (`|| []` only replaces null). -/
def newGroup (v : VoteRecord) : CaseGroup :=
  { title := caseKey v
    category := jsOr (v.agenda_items.bind (·.category)) "General"
    date := jsOr ((v.agenda_items.bind (·.meetings)).bind (·.date)) v.created_at
    tags := (v.agenda_items.bind (·.tags)).getD []
    votes := [] }

/-- The vote entry pushed onto its group
(`member_name: name || 'Unknown', title: member title || ''`). -/
def caseEntry (v : VoteRecord) : CaseVote :=
  { member_name := jsOr (v.council_members.bind (·.name)) "Unknown"
    vote_value := v.vote_value.toStr
    title := jsOr (v.council_members.bind (·.title)) "" }

/-- One step of the grouping `reduce`: create the group if absent, then push
the vote entry onto it. -/
def addCase (m : List (String × CaseGroup)) (v : VoteRecord) : List (String × CaseGroup) :=
  (if m.any (fun p => p.1 == caseKey v) then m else m ++ [(caseKey v, newGroup v)]).map
    (fun p =>
      if p.1 == caseKey v then
        (p.1, ⟨p.2.title, p.2.category, p.2.date, p.2.tags, p.2.votes ++ [caseEntry v]⟩)
      else p)

/-- The agenda-item groups of `fetchCaseStudies` (`part_001` lines 58–75). -/
def caseStudyGroups (records : List VoteRecord) : List (String × CaseGroup) :=
  records.foldl addCase []

/-- Number of YEA entries in a group's votes
(`group.votes.filter(v => v.vote_value === 'YEA').length`). -/
def yeaCount (votes : List CaseVote) : Nat :=
  (votes.filter (fun v => v.vote_value == "YEA")).length

/-- Outcome derivation (`part_001` line 81), with JS numeric division
embedded over `ℚ`: `yeaVotes > totalVotes / 2 ? 'Approved' : 'Denied'`. -/
def deriveOutcome (votes : List CaseVote) : String :=
  if (yeaCount votes : ℚ) > (votes.length : ℚ) / 2 then "Approved" else "Denied"

/-- Impact-level derivation (`part_001` line 90):
`totalVotes >= 7 ? 'high' : totalVotes >= 5 ? 'medium' : 'low'`. -/
def deriveImpact (votes : List CaseVote) : String :=
  if votes.length ≥ 7 then "high" else if votes.length ≥ 5 then "medium" else "low"

/-- A rendered case study (the fields the claims are about). -/
structure CaseStudy where
  title : String
  category : String
  outcome : String
  impact_level : String
deriving DecidableEq, Repr

/-- The `map` converting groups to case studies (`part_001` lines 78–94). -/
def caseStudies (records : List VoteRecord) : List CaseStudy :=
  (caseStudyGroups records).map (fun p =>
    { title := p.2.title
      category := p.2.category
      outcome := deriveOutcome p.2.votes
      impact_level := deriveImpact p.2.votes })

/-- The agenda-item title shown in the votes list
(`VotesAnalysis.tsx` line 222: `vote.agenda_items?.title || 'Unknown Agenda Item'`). -/
def displayTitle (v : VoteRecord) : String :=
  jsOr (v.agenda_items.bind (·.title)) "Unknown Agenda Item"

/-- A recent-vote entry of `MembersList.tsx` (lines 97–103). -/
structure RecentVote where
  vote_value : String
  agenda_item_title : String
  date : String
  category : String
deriving DecidableEq, Repr

/-- The mapping building a recent-vote entry, with its per-field defaults
(`title || 'Unknown'`, `date || 'Unknown'`, `category || 'General'`). -/
def recentVote (v : VoteRecord) : RecentVote :=
  { vote_value := v.vote_value.toStr
    agenda_item_title := jsOr (v.agenda_items.bind (·.title)) "Unknown"
    date := jsOr ((v.agenda_items.bind (·.meetings)).bind (·.date)) "Unknown"
    category := jsOr (v.agenda_items.bind (·.category)) "General" }

/-! ### Criteria dimensions (for the filter-composition property) -/

/-- The four independent criteria dimensions. -/
inductive Dim where
  | search
  | category
  | member
  | voteValue
deriving DecidableEq, Repr

/-- Set one dimension of a criteria record. -/
def setDim (fs : Filters) : Dim → String → Filters
  | .search, s => { fs with search := s }
  | .category, s => { fs with category := s }
  | .member, s => { fs with member := s }
  | .voteValue, s => { fs with voteValue := s }

/-- Criteria constraining a single dimension. -/
def single (d : Dim) (s : String) : Filters :=
  setDim Filters.empty d s

/-! ### Concrete sample inputs used by witnesses and counterexamples -/

/-- A fully joined sample record. -/
def sampleVote : VoteRecord :=
  { vote_value := .YEA
    created_at := "2024-01-01"
    agenda_items := some
      { title := some "Affordable Housing Plan"
        category := some "Housing"
        tags := some ["Affordable Housing"]
        meetings := some { date := some "2024-01-01", title := some "Regular Session" } }
    council_members := some { name := some "Jane Doe", title := some "Mayor" } }

/-- A record whose agenda-item join is missing. -/
def badVote : VoteRecord :=
  { vote_value := .NAY
    created_at := "2024-02-02"
    agenda_items := none
    council_members := some { name := some "Sam Lee", title := some "Council Member" } }

/-- A single case-study vote entry with the given outcome string. -/
def mkCaseVote (o : String) : CaseVote :=
  { member_name := "Member", vote_value := o, title := "" }

/-- Two YEA and two NAY entries: a 4-vote tie. -/
def tieVotes : List CaseVote :=
  [mkCaseVote "YEA", mkCaseVote "YEA", mkCaseVote "NAY", mkCaseVote "NAY"]

/-! ## Helper lemmas -/

theorem applyFilters_eq_filter (fs : Filters) (R : List VoteRecord) :
    applyFilters fs R = R.filter (fullPass fs) := by
  unfold applyFilters fullPass
  by_cases h1 : fs.search = "" <;> by_cases h2 : fs.category = "" <;>
    by_cases h3 : fs.member = "" <;> by_cases h4 : fs.voteValue = "" <;>
    simp [h1, h2, h3, h4, List.filter_filter] <;>
    (congr 1; funext v;
     cases hs : searchMatch fs.search v <;> cases hc : categoryMatch fs.category v <;>
     cases hm : memberMatch fs.member v <;> cases hv : voteValueMatch fs.voteValue v <;>
     simp [hs, hc, hm, hv])

theorem sum_map_upd {β : Type} (g : β → ℕ) (f : β → β) (hf : ∀ b, g (f b) = g b + 1)
    (k : String) (m : List (String × β)) :
    ((m.map (fun p => if p.1 == k then (p.1, f p.2) else p)).map (fun p => g p.2)).sum =
      (m.map (fun p => g p.2)).sum + m.countP (fun p => p.1 == k) := by
  induction m with
  | nil => rfl
  | cons p t ih =>
    by_cases h : p.1 = k <;>
      simp [h, hf, List.countP_cons, List.map_map] at ih ⊢ <;> omega

theorem countP_key_eq_one {β : Type} (k : String) (m : List (String × β))
    (hnd : (m.map Prod.fst).Nodup) (hany : m.any (fun p => p.1 == k)) :
    m.countP (fun p => p.1 == k) = 1 := by
  induction m with
  | nil => simp at hany
  | cons p t ih =>
    simp only [List.map_cons, List.nodup_cons] at hnd
    by_cases hp : p.1 = k
    · have h0 : t.countP (fun q => q.1 == k) = 0 := by
        rw [List.countP_eq_zero]
        intro q hq
        simp only [beq_iff_eq]
        intro hqk
        apply hnd.1
        rw [hp, ← hqk]
        exact List.mem_map_of_mem Prod.fst hq
      simp [List.countP_cons, hp, h0]
    · have hany' : (t.any fun q => q.1 == k) = true := by
        simp only [List.any_cons, Bool.or_eq_true] at hany
        rcases hany with h | h
        · exact absurd (beq_iff_eq.mp h) hp
        · exact h
      simp [List.countP_cons, hp, ih hnd.2 hany']

theorem key_of_upd {β : Type} (f : β → β) (k : String) (p : String × β) :
    (if p.1 == k then (p.1, f p.2) else p).1 = p.1 := by
  by_cases h : p.1 = k <;> simp [h]

theorem keys_map_upd {β : Type} (f : β → β) (k : String) (m : List (String × β)) :
    (m.map (fun p => if p.1 == k then (p.1, f p.2) else p)).map Prod.fst = m.map Prod.fst := by
  rw [List.map_map]
  exact List.map_congr_left fun p _ => key_of_upd f k p

theorem not_any_key {β : Type} (k : String) (m : List (String × β))
    (h : ¬ m.any (fun p => p.1 == k) = true) :
    k ∉ m.map Prod.fst := by
  intro hk
  apply h
  rw [List.any_eq_true]
  obtain ⟨p, hp, hpk⟩ := List.mem_map.mp hk
  exact ⟨p, hp, by simp [hpk]⟩

theorem filter_key_map {β : Type} (u : String × β → String × β)
    (hu : ∀ p, (u p).1 = p.1) (c : String) (m : List (String × β)) :
    (m.map u).filter (fun p => p.1 == c) = (m.filter (fun p => p.1 == c)).map u := by
  induction m with
  | nil => rfl
  | cons p t ih =>
    rw [List.map_cons, List.filter_cons, List.filter_cons, hu]
    by_cases hc : (p.1 == c) = true
    · rw [if_pos hc, if_pos hc, List.map_cons, ih]
    · rw [if_neg hc, if_neg hc, ih]

/-! ## Claim theorems -/

/-- **C8**: filtering with all four criteria absent or empty is the identity:
the same records, in the same order, none removed. -/
theorem applyFilters_identity (R : List VoteRecord) :
    applyFilters Filters.empty R = R := by
  simp [applyFilters, Filters.empty]

/-- **C2**: `applyFilters` keeps a record iff it passes all non-empty
criteria (AND across the four dimensions, whose per-dimension semantics are
the `searchMatch` / `categoryMatch` / `memberMatch` / `voteValueMatch`
predicates embedded from the source), and the output is a sublist of the
input, hence preserves relative order. -/
theorem applyFilters_semantics (fs : Filters) (R : List VoteRecord) :
    (∀ v : VoteRecord,
      v ∈ applyFilters fs R ↔
        v ∈ R ∧
        (fs.search ≠ "" → searchMatch fs.search v = true) ∧
        (fs.category ≠ "" → categoryMatch fs.category v = true) ∧
        (fs.member ≠ "" → memberMatch fs.member v = true) ∧
        (fs.voteValue ≠ "" → voteValueMatch fs.voteValue v = true)) ∧
    (applyFilters fs R).Sublist R := by
  rw [applyFilters_eq_filter]
  refine ⟨fun v => ?_, List.filter_sublist R⟩
  rw [List.mem_filter]
  unfold fullPass
  by_cases h1 : fs.search = "" <;> by_cases h2 : fs.category = "" <;>
    by_cases h3 : fs.member = "" <;> by_cases h4 : fs.voteValue = "" <;>
    simp [h1, h2, h3, h4] <;> tauto

/-- **C10**: with a non-empty category criterion, a record whose agenda-item
join is missing or whose category field is absent is always excluded — it
matches no category string at all, including `"Unknown"` and `"General"`. -/
theorem categoryFilter_excludes_missing (fs : Filters) (R : List VoteRecord)
    (v : VoteRecord) (hc : fs.category ≠ "")
    (hv : v.agenda_items.bind (·.category) = none) :
    v ∉ applyFilters fs R := by
  rw [applyFilters_eq_filter]
  intro hmem
  have hpass := (List.mem_filter.mp hmem).2
  unfold fullPass at hpass
  rw [categoryMatch, hv] at hpass
  simp [hc] at hpass

/-- Witness for `categoryFilter_excludes_missing` at the criterion
`"Unknown"` and a concrete record with a missing join. -/
theorem categoryFilter_excludes_missing_witness :
    (Filters.mk "" "Unknown" "" "").category ≠ "" ∧
    badVote.agenda_items.bind (·.category) = none ∧
    badVote ∉ applyFilters (Filters.mk "" "Unknown" "" "") [badVote] :=
  ⟨by decide, rfl,
   categoryFilter_excludes_missing (Filters.mk "" "Unknown" "" "") [badVote] badVote
     (by decide) rfl⟩

theorem tally_partition (R : List VoteRecord) :
    tally .YEA R + tally .NAY R + tally .ABSTAIN R + tally .ABSENT R = R.length := by
  induction R with
  | nil => rfl
  | cons v t ih =>
    cases h : v.vote_value <;>
      simp [tally, List.filter_cons, h] at ih ⊢ <;> omega

/-- **C1**: the four per-outcome tallies of the stats partition the total,
the total equals the list length, and each tally counts exactly the records
with that outcome. -/
theorem computeStats_partition (R : List VoteRecord) :
    (computeStats R).yea + (computeStats R).nay + (computeStats R).abstain +
        (computeStats R).absent = (computeStats R).total ∧
    (computeStats R).total = R.length ∧
    (computeStats R).yea = (R.filter (fun v => v.vote_value == .YEA)).length ∧
    (computeStats R).nay = (R.filter (fun v => v.vote_value == .NAY)).length ∧
    (computeStats R).abstain = (R.filter (fun v => v.vote_value == .ABSTAIN)).length ∧
    (computeStats R).absent = (R.filter (fun v => v.vote_value == .ABSENT)).length :=
  ⟨tally_partition R, rfl, rfl, rfl, rfl, rfl⟩

/-- **C3**: a case-study outcome is `"Approved"` iff strictly more than half
of the group's votes are YEA, `"Denied"` otherwise; a 4-vote group with 2
YEA and 2 NAY (a tie) yields `"Denied"`. -/
theorem deriveOutcome_strict_majority :
    (∀ vs : List CaseVote,
      (deriveOutcome vs = "Approved" ↔ 2 * yeaCount vs > vs.length) ∧
      (deriveOutcome vs = "Denied" ↔ ¬ 2 * yeaCount vs > vs.length)) ∧
    yeaCount tieVotes = 2 ∧ tieVotes.length = 4 ∧
    deriveOutcome tieVotes = "Denied" := by
  have key : ∀ vs : List CaseVote,
      ((vs.length : ℚ) / 2 < (yeaCount vs : ℚ)) ↔ vs.length < 2 * yeaCount vs := by
    intro vs
    rw [div_lt_iff₀ (by norm_num : (0 : ℚ) < 2),
      show ((yeaCount vs : ℚ) * 2) = ((yeaCount vs * 2 : ℕ) : ℚ) by push_cast; ring,
      Nat.cast_lt]
    omega
  have hiff : ∀ vs : List CaseVote,
      (deriveOutcome vs = "Approved" ↔ 2 * yeaCount vs > vs.length) ∧
      (deriveOutcome vs = "Denied" ↔ ¬ 2 * yeaCount vs > vs.length) := by
    intro vs
    unfold deriveOutcome
    split_ifs with h
    · exact ⟨⟨fun _ => (key vs).mp h, fun _ => rfl⟩,
        ⟨fun he => absurd he (by decide), fun hn => absurd ((key vs).mp h) hn⟩⟩
    · exact ⟨⟨fun he => absurd he (by decide), fun hl => absurd ((key vs).mpr hl) h⟩,
        ⟨fun _ => fun hl => absurd ((key vs).mpr hl) h, fun _ => rfl⟩⟩
  exact ⟨hiff, by decide, by decide, (hiff tieVotes).2.mpr (by decide)⟩

/-- **C4**: a case-study impact level is `"high"` iff the group has at least
7 votes, `"medium"` iff at least 5 but fewer than 7, and `"low"` otherwise;
counts 7, 6 and 4 yield `"high"`, `"medium"` and `"low"`. -/
theorem deriveImpact_thresholds :
    (∀ vs : List CaseVote,
      (deriveImpact vs = "high" ↔ 7 ≤ vs.length) ∧
      (deriveImpact vs = "medium" ↔ 5 ≤ vs.length ∧ vs.length < 7) ∧
      (deriveImpact vs = "low" ↔ vs.length < 5)) ∧
    deriveImpact (List.replicate 7 (mkCaseVote "YEA")) = "high" ∧
    deriveImpact (List.replicate 6 (mkCaseVote "YEA")) = "medium" ∧
    deriveImpact (List.replicate 4 (mkCaseVote "YEA")) = "low" := by
  refine ⟨fun vs => ?_, by decide, by decide, by decide⟩
  unfold deriveImpact
  by_cases h1 : 7 ≤ vs.length
  · simp only [if_pos h1]
    exact ⟨⟨fun _ => h1, fun _ => trivial⟩,
      ⟨fun he => absurd he (by decide), fun hc => absurd h1 (by omega)⟩,
      ⟨fun he => absurd he (by decide), fun hc => absurd h1 (by omega)⟩⟩
  · by_cases h2 : 5 ≤ vs.length
    · simp only [if_neg h1, if_pos h2]
      exact ⟨⟨fun he => absurd he (by decide), fun hc => absurd hc h1⟩,
        ⟨fun _ => ⟨h2, by omega⟩, fun _ => trivial⟩,
        ⟨fun he => absurd he (by decide), fun hc => absurd h2 (by omega)⟩⟩
    · simp only [if_neg h1, if_neg h2]
      exact ⟨⟨fun he => absurd he (by decide), fun hc => absurd hc h1⟩,
        ⟨fun he => absurd he (by decide), fun hc => absurd hc.1 h2⟩,
        ⟨fun _ => by omega, fun _ => trivial⟩⟩

theorem binExp_23_40 : binExp ((23 : ℚ) / 40) = -1 := by
  have hc : ⌈((23 : ℚ) / 40)⁻¹⌉ = 2 := by norm_num [Int.ceil_eq_iff]
  unfold binExp
  rw [if_neg (by norm_num), hc]
  norm_num [clog2Fuel, Int.toNat_ofNat]

theorem rne_23_40 :
    rne ((23 : ℚ) / 40 * 2 ^ ((52 : ℤ) - -1)) = 5179139571476070 := by
  have hf : ⌊(23 : ℚ) / 40 * 2 ^ ((52 : ℤ) - -1)⌋ = 5179139571476070 := by
    norm_num [Int.floor_eq_iff]
  unfold rne
  rw [hf]
  norm_num

theorem fl64_23_40 :
    fl64 ((23 : ℚ) / 40) = 2589569785738035 / 4503599627370496 := by
  unfold fl64
  rw [if_neg (by norm_num), binExp_23_40, rne_23_40]
  norm_num

theorem binExp_fl_23_40 :
    binExp ((2589569785738035 : ℚ) / 4503599627370496 * 100) = 5 := by
  have hf : ⌊(2589569785738035 : ℚ) / 4503599627370496 * 100⌋ = 57 := by
    norm_num [Int.floor_eq_iff]
  unfold binExp
  rw [if_pos (by norm_num), hf]
  decide

theorem rne_fl_23_40 :
    rne ((2589569785738035 : ℚ) / 4503599627370496 * 100 * 2 ^ ((52 : ℤ) - 5))
      = 8092405580431359 := by
  have hf : ⌊(2589569785738035 : ℚ) / 4503599627370496 * 100 * 2 ^ ((52 : ℤ) - 5)⌋
      = 8092405580431359 := by
    norm_num [Int.floor_eq_iff]
  unfold rne
  rw [hf]
  norm_num

theorem fl64_fl_23_40 :
    fl64 ((2589569785738035 : ℚ) / 4503599627370496 * 100)
      = 8092405580431359 / 140737488355328 := by
  unfold fl64
  rw [if_neg (by norm_num), binExp_fl_23_40, rne_fl_23_40]
  norm_num

theorem jsPct_23_40 : jsPct 23 40 = 57 := by
  unfold jsPct
  rw [if_pos (by norm_num),
    show ((23 : ℕ) : ℚ) / ((40 : ℕ) : ℚ) = (23 : ℚ) / 40 by norm_num,
    fl64_23_40, fl64_fl_23_40]
  unfold jsRound
  norm_num [Int.floor_eq_iff]

theorem binExp_2_3 : binExp ((2 : ℚ) / 3) = -1 := by
  have hc : ⌈((2 : ℚ) / 3)⁻¹⌉ = 2 := by norm_num [Int.ceil_eq_iff]
  unfold binExp
  rw [if_neg (by norm_num), hc]
  norm_num [clog2Fuel, Int.toNat_ofNat]

theorem rne_2_3 :
    rne ((2 : ℚ) / 3 * 2 ^ ((52 : ℤ) - -1)) = 6004799503160661 := by
  have hf : ⌊(2 : ℚ) / 3 * 2 ^ ((52 : ℤ) - -1)⌋ = 6004799503160661 := by
    norm_num [Int.floor_eq_iff]
  unfold rne
  rw [hf]
  norm_num

theorem fl64_2_3 :
    fl64 ((2 : ℚ) / 3) = 6004799503160661 / 9007199254740992 := by
  unfold fl64
  rw [if_neg (by norm_num), binExp_2_3, rne_2_3]
  norm_num

theorem binExp_fl_2_3 :
    binExp ((6004799503160661 : ℚ) / 9007199254740992 * 100) = 6 := by
  have hf : ⌊(6004799503160661 : ℚ) / 9007199254740992 * 100⌋ = 66 := by
    norm_num [Int.floor_eq_iff]
  unfold binExp
  rw [if_pos (by norm_num), hf]
  decide

theorem rne_fl_2_3 :
    rne ((6004799503160661 : ℚ) / 9007199254740992 * 100 * 2 ^ ((52 : ℤ) - 6))
      = 4691249611844266 := by
  have hf : ⌊(6004799503160661 : ℚ) / 9007199254740992 * 100 * 2 ^ ((52 : ℤ) - 6)⌋
      = 4691249611844266 := by
    norm_num [Int.floor_eq_iff]
  unfold rne
  rw [hf]
  norm_num

theorem fl64_fl_2_3 :
    fl64 ((6004799503160661 : ℚ) / 9007199254740992 * 100)
      = 4691249611844266 / 70368744177664 := by
  unfold fl64
  rw [if_neg (by norm_num), binExp_fl_2_3, rne_fl_2_3]
  norm_num

theorem jsPct_2_3 : jsPct 2 3 = 67 := by
  unfold jsPct
  rw [if_pos (by norm_num),
    show ((2 : ℕ) : ℚ) / ((3 : ℕ) : ℚ) = (2 : ℚ) / 3 by norm_num,
    fl64_2_3, fl64_fl_2_3]
  unfold jsRound
  norm_num [Int.floor_eq_iff]

theorem binExp_1_4 : binExp ((1 : ℚ) / 4) = -2 := by
  have hc : ⌈((1 : ℚ) / 4)⁻¹⌉ = 4 := by norm_num [Int.ceil_eq_iff]
  unfold binExp
  rw [if_neg (by norm_num), hc]
  norm_num [clog2Fuel, Int.toNat_ofNat]

theorem rne_1_4 :
    rne ((1 : ℚ) / 4 * 2 ^ ((52 : ℤ) - -2)) = 4503599627370496 := by
  have hf : ⌊(1 : ℚ) / 4 * 2 ^ ((52 : ℤ) - -2)⌋ = 4503599627370496 := by
    norm_num [Int.floor_eq_iff]
  unfold rne
  rw [hf]
  norm_num

theorem fl64_1_4 : fl64 ((1 : ℚ) / 4) = (1 : ℚ) / 4 := by
  unfold fl64
  rw [if_neg (by norm_num), binExp_1_4, rne_1_4]
  norm_num

theorem binExp_25 : binExp ((1 : ℚ) / 4 * 100) = 4 := by
  have hf : ⌊(1 : ℚ) / 4 * 100⌋ = 25 := by
    norm_num [Int.floor_eq_iff]
  unfold binExp
  rw [if_pos (by norm_num), hf]
  decide

theorem rne_25 :
    rne ((1 : ℚ) / 4 * 100 * 2 ^ ((52 : ℤ) - 4)) = 7036874417766400 := by
  have hf : ⌊(1 : ℚ) / 4 * 100 * 2 ^ ((52 : ℤ) - 4)⌋ = 7036874417766400 := by
    norm_num [Int.floor_eq_iff]
  unfold rne
  rw [hf]
  norm_num

theorem fl64_25 : fl64 ((1 : ℚ) / 4 * 100) = (1 : ℚ) / 4 * 100 := by
  unfold fl64
  rw [if_neg (by norm_num), binExp_25, rne_25]
  norm_num

theorem fl64_quarter_cast :
    fl64 (((1 : ℕ) : ℚ) / ((4 : ℕ) : ℚ)) = ((1 : ℕ) : ℚ) / ((4 : ℕ) : ℚ) := by
  rw [show (((1 : ℕ) : ℚ) / ((4 : ℕ) : ℚ)) = (1 : ℚ) / 4 by norm_num]
  exact fl64_1_4

theorem fl64_quarter_mul_cast :
    fl64 (((1 : ℕ) : ℚ) / ((4 : ℕ) : ℚ) * 100)
      = ((1 : ℕ) : ℚ) / ((4 : ℕ) : ℚ) * 100 := by
  rw [show (((1 : ℕ) : ℚ) / ((4 : ℕ) : ℚ)) = (1 : ℚ) / 4 by norm_num]
  exact fl64_25

/-- **C5** (amended): the percentage the code reports is the half-up rounding
of the IEEE-binary64 evaluation of `(count / total) * 100`.  Whenever the two
binary64 operations are exact it coincides with the spec's idealized
`round(100 * count / total)` (e.g. 2 of 3 votes gives 67 on both sides, as
in the spec's Scenario A), but not always: 23 of 40 gives 57 where exact
half-up rounding of 57.5 gives 58.  When `total = 0` the guard yields 0 —
never NaN or an error — and on the empty list all counts and percentages
are 0. -/
theorem pct_binary64_amended :
    (∀ c t : ℕ, 0 < t →
      fl64 ((c : ℚ) / (t : ℚ)) = (c : ℚ) / (t : ℚ) →
      fl64 ((c : ℚ) / (t : ℚ) * 100) = (c : ℚ) / (t : ℚ) * 100 →
      jsPct c t = specPct c t) ∧
    (∀ c : ℕ, jsPct c 0 = 0) ∧
    computeStats [] = ⟨0, 0, 0, 0, 0⟩ ∧
    jsPct (computeStats []).yea (computeStats []).total = 0 ∧
    jsPct (computeStats []).nay (computeStats []).total = 0 ∧
    jsPct (computeStats []).abstain (computeStats []).total = 0 ∧
    jsPct 2 3 = 67 ∧ specPct 2 3 = 67 := by
  refine ⟨fun c t ht h1 h2 => ?_, fun c => rfl, rfl, rfl, rfl, rfl, jsPct_2_3, ?_⟩
  · unfold jsPct specPct
    rw [if_pos ht, if_pos ht, h1, h2]
    unfold jsRound
    congr 1
    ring
  · unfold specPct jsRound
    rw [if_pos (by norm_num)]
    norm_num [Int.floor_eq_iff]

/-- Witness for `pct_binary64_amended` at 1 of 4 votes, where both binary64
operations are exact and the code's percentage equals the idealized one. -/
theorem pct_binary64_witness :
    0 < 4 ∧
    fl64 (((1 : ℕ) : ℚ) / ((4 : ℕ) : ℚ)) = ((1 : ℕ) : ℚ) / ((4 : ℕ) : ℚ) ∧
    fl64 (((1 : ℕ) : ℚ) / ((4 : ℕ) : ℚ) * 100) = ((1 : ℕ) : ℚ) / ((4 : ℕ) : ℚ) * 100 ∧
    jsPct 1 4 = specPct 1 4 :=
  ⟨by decide, fl64_quarter_cast, fl64_quarter_mul_cast,
   pct_binary64_amended.1 1 4 (by decide) fl64_quarter_cast fl64_quarter_mul_cast⟩

/-- **C5** (counterexample): at 23 YEA of 40 votes the binary64 percentage
the code computes is 57 (the double `57.49999999999999...` rounds down),
while exact half-up rounding of `100 * 23 / 40 = 57.5` is 58 — the claimed
equation fails at this input. -/
theorem pct_exact_rounding_counterexample :
    jsPct 23 40 = 57 ∧ specPct 23 40 = 58 ∧ jsPct 23 40 ≠ specPct 23 40 := by
  have h2 : specPct 23 40 = 58 := by
    unfold specPct jsRound
    rw [if_pos (by norm_num)]
    norm_num [Int.floor_eq_iff]
  exact ⟨jsPct_23_40, h2, by rw [jsPct_23_40, h2]; decide⟩

theorem addVote_keys_nodup (m : List (String × CatStats)) (v : MemberVote)
    (hnd : (m.map Prod.fst).Nodup) : ((addVote m v).map Prod.fst).Nodup := by
  unfold addVote
  split_ifs with h
  · rw [keys_map_upd (fun s : CatStats => s.bump v.vote_value) (categoryKey v)]
    exact hnd
  · simp [List.nodup_append, hnd, not_any_key _ m h]

theorem bump_total (s : CatStats) (w : MemberVoteValue) :
    (s.bump w).total = s.total + 1 := by
  cases w <;> rfl

theorem addVote_total_sum (m : List (String × CatStats)) (v : MemberVote)
    (hnd : (m.map Prod.fst).Nodup) :
    ((addVote m v).map (fun p => p.2.total)).sum
      = (m.map (fun p => p.2.total)).sum + 1 := by
  unfold addVote
  split_ifs with h
  · rw [sum_map_upd (fun s : CatStats => s.total) (fun s : CatStats => s.bump v.vote_value)
      (fun b => bump_total b v.vote_value) (categoryKey v) m,
      countP_key_eq_one (categoryKey v) m hnd h]
  · simp [bump_total, CatStats.zero]

theorem addVote_filter_sum (m : List (String × CatStats)) (v : MemberVote) (c : String)
    (hnd : (m.map Prod.fst).Nodup) :
    (((addVote m v).filter (fun p => p.1 == c)).map (fun p => p.2.total)).sum =
      ((m.filter (fun p => p.1 == c)).map (fun p => p.2.total)).sum +
        (if categoryKey v == c then 1 else 0) := by
  unfold addVote
  by_cases h : (m.any fun p => p.1 == categoryKey v) = true
  · rw [if_pos h,
      filter_key_map _ (key_of_upd (fun s : CatStats => s.bump v.vote_value) (categoryKey v)) c m,
      sum_map_upd (fun s : CatStats => s.total) (fun s : CatStats => s.bump v.vote_value)
        (fun b => bump_total b v.vote_value) (categoryKey v)
        (m.filter (fun p => p.1 == c)),
      List.countP_filter]
    congr 1
    by_cases hkc : categoryKey v = c
    · rw [if_pos (by simp [hkc])]
      subst hkc
      have hself : (m.countP fun p =>
          (p.1 == categoryKey v) && (p.1 == categoryKey v)) =
          m.countP (fun p => p.1 == categoryKey v) := by
        simp [Bool.and_self]
      rw [hself, countP_key_eq_one _ m hnd h]
    · rw [if_neg (by simp [hkc])]
      rw [List.countP_eq_zero]
      intro p hp
      simp only [Bool.and_eq_true, beq_iff_eq]
      rintro ⟨hk', hc'⟩
      exact hkc (hk' ▸ hc')
  · rw [if_neg h, List.filter_append, List.map_append, List.sum_append]
    congr 1
    by_cases hkc : categoryKey v = c <;>
      simp [List.filter_cons, hkc, bump_total, CatStats.zero]

theorem foldl_addVote_invariant (R : List MemberVote) (m : List (String × CatStats))
    (hnd : (m.map Prod.fst).Nodup) :
    ((R.foldl addVote m).map Prod.fst).Nodup ∧
    ((R.foldl addVote m).map (fun p => p.2.total)).sum
      = (m.map (fun p => p.2.total)).sum + R.length ∧
    ∀ c, (((R.foldl addVote m).filter (fun p => p.1 == c)).map (fun p => p.2.total)).sum
      = ((m.filter (fun p => p.1 == c)).map (fun p => p.2.total)).sum
        + R.countP (fun v => categoryKey v == c) := by
  induction R generalizing m with
  | nil => exact ⟨hnd, by simp, fun c => by simp⟩
  | cons v t ih =>
    obtain ⟨ha, hb, hc⟩ := ih (addVote m v) (addVote_keys_nodup m v hnd)
    refine ⟨ha, ?_, ?_⟩
    · simp only [List.foldl_cons]
      rw [hb, addVote_total_sum m v hnd]
      simp only [List.length_cons]
      omega
    · intro c
      simp only [List.foldl_cons]
      rw [hc c, addVote_filter_sum m v c hnd, List.countP_cons]
      by_cases hkc : categoryKey v = c <;> simp [hkc] <;> omega

/-- **C6**: the member-profile category breakdown groups records by their
agenda item's category (missing or empty category becoming `"Unknown"`),
group keys are pairwise distinct, each group's total counts exactly the
records with that key, and the totals sum to the list length. -/
theorem categoryBreakdown_partition (R : List MemberVote) :
    (((categoryBreakdown R).map (fun p => p.2.total)).sum = R.length) ∧
    ((categoryBreakdown R).map Prod.fst).Nodup ∧
    (∀ c, (((categoryBreakdown R).filter (fun p => p.1 == c)).map
        (fun p => p.2.total)).sum
      = (R.filter (fun v => categoryKey v == c)).length) ∧
    (∀ w : MemberVoteValue, categoryKey ⟨w, none⟩ = "Unknown") ∧
    (∀ (w : MemberVoteValue) (t : Option String) (tg : Option (List String))
        (mt : Option Meeting),
      categoryKey ⟨w, some ⟨t, some "", tg, mt⟩⟩ = "Unknown" ∧
      categoryKey ⟨w, some ⟨t, none, tg, mt⟩⟩ = "Unknown") := by
  obtain ⟨ha, hb, hcc⟩ := foldl_addVote_invariant R [] (by simp)
  refine ⟨by simpa using hb, ha, fun c => ?_, fun w => rfl,
    fun w t tg mt => ⟨rfl, rfl⟩⟩
  have hc := hcc c
  simpa [List.countP_eq_length_filter] using hc

theorem addCase_keys_nodup (m : List (String × CaseGroup)) (v : VoteRecord)
    (hnd : (m.map Prod.fst).Nodup) : ((addCase m v).map Prod.fst).Nodup := by
  unfold addCase
  rw [keys_map_upd
    (fun g : CaseGroup => ⟨g.title, g.category, g.date, g.tags, g.votes ++ [caseEntry v]⟩)
    (caseKey v)]
  split_ifs with h
  · exact hnd
  · simp [List.nodup_append, hnd, not_any_key _ m h]

theorem addCase_vote_sum (m : List (String × CaseGroup)) (v : VoteRecord)
    (hnd : (m.map Prod.fst).Nodup) :
    ((addCase m v).map (fun p => p.2.votes.length)).sum
      = (m.map (fun p => p.2.votes.length)).sum + 1 := by
  unfold addCase
  by_cases h : (m.any fun p => p.1 == caseKey v) = true
  · rw [if_pos h,
      sum_map_upd (fun g : CaseGroup => g.votes.length)
      (fun g : CaseGroup => ⟨g.title, g.category, g.date, g.tags, g.votes ++ [caseEntry v]⟩)
      (fun g => by simp) (caseKey v) m,
      countP_key_eq_one (caseKey v) m hnd h]
  · rw [if_neg h,
      sum_map_upd (fun g : CaseGroup => g.votes.length)
      (fun g : CaseGroup => ⟨g.title, g.category, g.date, g.tags, g.votes ++ [caseEntry v]⟩)
      (fun g => by simp) (caseKey v) (m ++ [(caseKey v, newGroup v)])]
    have hcnt : ((m ++ [(caseKey v, newGroup v)]).countP
        fun p => p.1 == caseKey v) = 1 := by
      rw [List.countP_append]
      have h0 : (m.countP fun p => p.1 == caseKey v) = 0 := by
        rw [List.countP_eq_zero]
        intro p hp hpk
        exact h (List.any_eq_true.mpr ⟨p, hp, hpk⟩)
      simp [h0]
    rw [hcnt]
    simp [newGroup]

theorem foldl_addCase_sum (R : List VoteRecord) (m : List (String × CaseGroup))
    (hnd : (m.map Prod.fst).Nodup) :
    ((R.foldl addCase m).map Prod.fst).Nodup ∧
    ((R.foldl addCase m).map (fun p => p.2.votes.length)).sum
      = (m.map (fun p => p.2.votes.length)).sum + R.length := by
  induction R generalizing m with
  | nil => exact ⟨hnd, by simp⟩
  | cons v t ih =>
    obtain ⟨ha, hb⟩ := ih (addCase m v) (addCase_keys_nodup m v hnd)
    refine ⟨ha, ?_⟩
    simp only [List.foldl_cons]
    rw [hb, addCase_vote_sum m v hnd]
    simp only [List.length_cons]
    omega

/-- **C7** (counterexample): the case-study computation gives a record with
a missing agenda-item join the title `"Unknown"` and category `"General"`,
not the claim's title `"Unknown Agenda Item"` and category `"Unknown"`. -/
theorem caseStudy_defaults_counterexample :
    (caseStudies [badVote]).map (fun s => (s.title, s.category))
      = [("Unknown", "General")] ∧
    (caseStudies [badVote]).map (fun s => (s.title, s.category))
      ≠ [("Unknown Agenda Item", "Unknown")] := by
  have base : (caseStudies [badVote]).map (fun s => (s.title, s.category))
      = [("Unknown", "General")] := rfl
  refine ⟨base, fun hcontra => ?_⟩
  rw [base] at hcontra
  exact absurd hcontra (by decide)

/-- **C7** (amended): a record with a missing agenda-item join never aborts
the computations; it is aggregated under per-site defaults — title
`"Unknown"` and category `"General"` in the case-study grouping and the
members list, category `"Unknown"` in the member-profile breakdown, title
`"Unknown Agenda Item"` in the votes display — and every record, bad ones
included, is counted in exactly one case-study group while the stats total
still equals the list length. -/
theorem malformed_defaults_amended :
    (∀ (w : VoteValue) (ca : String) (cm : Option CouncilMember),
      caseKey ⟨w, ca, none, cm⟩ = "Unknown" ∧
      (newGroup ⟨w, ca, none, cm⟩).category = "General" ∧
      (recentVote ⟨w, ca, none, cm⟩).agenda_item_title = "Unknown" ∧
      (recentVote ⟨w, ca, none, cm⟩).category = "General" ∧
      displayTitle ⟨w, ca, none, cm⟩ = "Unknown Agenda Item") ∧
    (∀ w : MemberVoteValue, categoryKey ⟨w, none⟩ = "Unknown") ∧
    (∀ R : List VoteRecord,
      ((caseStudyGroups R).map (fun p => p.2.votes.length)).sum = R.length) ∧
    (∀ R : List VoteRecord, (computeStats R).total = R.length) := by
  refine ⟨fun w ca cm => ⟨rfl, rfl, rfl, rfl, rfl⟩, fun w => rfl, fun R => ?_,
    fun R => rfl⟩
  have hs := (foldl_addCase_sum R [] (by simp)).2
  simpa using hs

theorem fullPass_merge (d1 d2 : Dim) (v1 v2 : String) (hd : d1 ≠ d2)
    (h1 : v1 ≠ "") (h2 : v2 ≠ "") (v : VoteRecord) :
    fullPass (setDim (single d1 v1) d2 v2) v
      = (fullPass (single d1 v1) v && fullPass (single d2 v2) v) := by
  cases d1 <;> cases d2 <;>
    simp_all [single, setDim, Filters.empty, fullPass, Bool.and_comm]

/-- **C9**: for two distinct dimensions with non-empty criteria, filtering
with both at once equals filtering by the first and then by the second, and
also in the other order: the dimension filters are independent predicates
whose composition commutes and equals their conjunction. -/
theorem applyFilters_compose (d1 d2 : Dim) (v1 v2 : String)
    (R : List VoteRecord) (hd : d1 ≠ d2) (h1 : v1 ≠ "") (h2 : v2 ≠ "") :
    applyFilters (setDim (single d1 v1) d2 v2) R
      = applyFilters (single d2 v2) (applyFilters (single d1 v1) R) ∧
    applyFilters (setDim (single d1 v1) d2 v2) R
      = applyFilters (single d1 v1) (applyFilters (single d2 v2) R) := by
  rw [applyFilters_eq_filter, applyFilters_eq_filter, applyFilters_eq_filter,
    applyFilters_eq_filter, applyFilters_eq_filter, List.filter_filter,
    List.filter_filter]
  constructor
  · refine List.filter_congr fun v hv => ?_
    rw [fullPass_merge d1 d2 v1 v2 hd h1 h2 v]
    cases fullPass (single d1 v1) v <;> cases fullPass (single d2 v2) v <;> rfl
  · refine List.filter_congr fun v hv => ?_
    rw [fullPass_merge d1 d2 v1 v2 hd h1 h2 v]

/-- Witness for `applyFilters_compose`: search `"housing"` then category
`"Housing"` on a concrete two-record list. -/
theorem applyFilters_compose_witness :
    Dim.search ≠ Dim.category ∧ ("housing" : String) ≠ "" ∧
    ("Housing" : String) ≠ "" ∧
    applyFilters (setDim (single Dim.search "housing") Dim.category "Housing")
        [sampleVote, badVote]
      = applyFilters (single Dim.category "Housing")
          (applyFilters (single Dim.search "housing") [sampleVote, badVote]) :=
  ⟨by decide, by decide, by decide,
   (applyFilters_compose Dim.search Dim.category "housing" "Housing"
     [sampleVote, badVote] (by decide) (by decide) (by decide)).1⟩

end CouncilTracker
